import Mathlib

/-!
Verification of the XY-stage time-lapse controller (`doc/gui.py`) against its
natural-language specification.

The development shallowly embeds the parts of the program the claims are
about:

* the run-cycle scheduler (`RunPage.run_cycle`, `RunPage.goto_and_photo_row`)
  as a function producing the list of observable steps of one cycle, each step
  tagged with the number of cooperative suspension points (`self.sleep` calls)
  completed before it;
* the run/stop state machine (`RunPage.__init__`, `RunPage.run_program`,
  `RunPage.stop_program`, `App.create_runpage`) as explicit state passing over
  the set of `RunPage` instances ever created;
* the location store and stage text protocol (`read_sample_locs`,
  `SidePage.save_locs`, `SidePage.update_locs`, `SidePage.set_x_and_y`) over
  file contents modelled as `List Char` and a file system modelled as a map
  from path to optional contents.

Machine integers are `Nat`/`Int` (Python integers are unbounded, so no
wrap-around is modelled); fallible operations return `Option`.
-/

/-! ### Observable steps of the scheduler

`Ev` is one observable sub-step of `RunPage.run_cycle` /
`RunPage.goto_and_photo_row`:

* `sleepE ms` — a call to `RunPage.sleep`, i.e. a cooperative suspension of
  `ms` milliseconds (`ms = int(time * 1000)` in the source);
* `accessE i` — the read `row, col = self.controller.locations[1][i]` that
  starts the visit of table index `i` (the stage-move step of that index);
* `captureE i` — the capture step of index `i` (the photo/`print` step after
  both settle delays);
* `incCountE` — the statement `self.count += 1` (the cycles-completed
  counter).
-/
inductive Ev where
  | sleepE (ms : Nat)
  | accessE (i : Int)
  | captureE (i : Int)
  | incCountE
deriving DecidableEq

/-- Python `range(a, b)`: the integers `a, a+1, …, b-1` in ascending order
(empty when `b ≤ a`). -/
def pyRange (a b : Int) : List Int :=
  (List.range (b - a).toNat).map (fun (k : Nat) => a + (k : Int))

/-- One iteration of the `for i in range(start, end)` loop body of
`RunPage.goto_and_photo_row`, started with `s` suspensions completed:
`if self.running:` read the command pair at index `i`, settle 0.5 s, settle
1 s, capture, and yield with a zero-length sleep.  Returns the emitted steps
(tagged with the suspension count at emission) and the new suspension
count.  `running` is the value of `self.running`: the source reads the
attribute at each iteration, but no code path assigns it during a run
(`run_program` sets it `True` once; `stop_program` never assigns it — see
`C3_stop_transition` below), so its value is constant over a cycle and is
passed as a plain boolean.  A stop request is modelled separately, as a
truncation of the emitted trace (`stoppedCycle`), because `stop_program`
halts the in-flight cycle by destroying the widget (which deletes the
pending `after` callback of the suspension in progress, so its
`wait_variable` never resumes), not by clearing the flag. -/
def photoIter (running : Bool) (i : Int) (s : Nat) : List (Nat × Ev) × Nat :=
  if running then
    ([(s, Ev.accessE i), (s, Ev.sleepE 500), (s + 1, Ev.sleepE 1000),
      (s + 2, Ev.captureE i), (s + 2, Ev.sleepE 0)], s + 3)
  else ([], s)

/-- The loop of `RunPage.goto_and_photo_row` over a list of indices. -/
def photoRow (running : Bool) : List Int → Nat → List (Nat × Ev) × Nat
  | [], s => ([], s)
  | i :: rest, s =>
      let step := photoIter running i s
      let tail := photoRow running rest step.2
      (step.1 ++ tail.1, tail.2)

/-- `RunPage.goto_and_photo_row(start, end)`: visit indices
`range(start, end)` in ascending order, starting with `s` suspensions
completed. -/
def goto_and_photo_row (running : Bool) (start e : Int) (s : Nat) :
    List (Nat × Ev) × Nat :=
  photoRow running (pyRange start e) s

/-- One execution of the body of `RunPage.run_cycle`, as the list of emitted
steps.  Parameters mirror the values the method reads: `running` is
`self.running` (constant over the cycle, see `photoIter`), `size`/`skip`
come from `App.share_values`, the three phase entries (`p1`, `p2`, `dur`,
all non-negative integers as validated by `validate`), and the elapsed run
time `time_now - self.start_time` in microseconds.  Following the source:
check `self.running`; `cols = sample_size // 2`; increment `self.count`;
`self.sleep(0)`; first sweep `goto_and_photo_row(skip_row1, cols +
skip_row1)`; second sweep `goto_and_photo_row(12 - skip_row1 - cols, 12 -
skip_row1)`; then sleep `max(interval*60 - sample_size*25, 0)` seconds where
the interval is `phase1_interval` if the elapsed time is strictly below
`phase_duration` hours and `phase2_interval` otherwise. -/
def run_cycle (size skip : Nat) (running : Bool)
    (p1 p2 dur elapsedMicro : Nat) : List (Nat × Ev) :=
  if running then
    let cols : Nat := size / 2
    let sweep1 := goto_and_photo_row running (skip : Int) ((cols : Int) + (skip : Int)) 1
    let sweep2 := goto_and_photo_row running (12 - (skip : Int) - (cols : Int))
      (12 - (skip : Int)) sweep1.2
    let waitMs : Nat :=
      if elapsedMicro < dur * 3600000000 then
        (max ((p1 : Int) * 60 - (size : Int) * 25) 0).toNat * 1000
      else
        (max ((p2 : Int) * 60 - (size : Int) * 25) 0).toNat * 1000
    (0, Ev.incCountE) :: (0, Ev.sleepE 0) ::
      (sweep1.1 ++ (sweep2.1 ++ [(sweep2.2, Ev.sleepE waitMs)]))
  else []

/-- Is this step the entry into suspension number `k` (a `RunPage.sleep`
call emitted with `k` suspensions already completed)? -/
def isSleepAt (k : Nat) (p : Nat × Ev) : Bool :=
  match p.2 with
  | Ev.sleepE _ => decide (p.1 = k)
  | _ => false

/-- The prefix of a list up to and including its first element satisfying
`q` (the whole list when no element does). -/
def takeThrough (q : α → Bool) : List α → List α
  | [] => []
  | a :: t => if q a then [a] else a :: takeThrough q t

/-- The steps of a cycle that actually execute when `stop_program` is
called while suspension number `k` of the cycle is in progress.
`stop_program` does not clear `self.running`; it calls
`App.create_runpage`, whose `frame.destroy()` deletes the Tcl commands
registered on the old widget — including the pending `after` callback that
`RunPage.sleep` scheduled to set the wait variable — so the
`wait_variable` of the suspension in progress never resumes and the cycle
freezes there: exactly the trace prefix through the entry of suspension
`k` executes, and nothing after it. -/
def stoppedCycle (size skip p1 p2 dur elapsedMicro k : Nat) : List (Nat × Ev) :=
  takeThrough (isSleepAt k) (run_cycle size skip true p1 p2 dur elapsedMicro)

/-- The index carried by a stage-visit (`accessE`) step, if any. -/
def accOf (p : Nat × Ev) : Option Int :=
  match p.2 with
  | Ev.accessE i => some i
  | _ => none

/-- Table indices visited by the first sweep of a cycle
(`goto_and_photo_row(skip_row1, cols + skip_row1)` with the run flag
true). -/
def visitedFirst (size skip : Nat) : List Int :=
  (goto_and_photo_row true (skip : Int) (((size / 2 : Nat) : Int) + (skip : Int)) 1).1.filterMap accOf

/-- Table indices visited by the second sweep of a cycle
(`goto_and_photo_row(12 - skip_row1 - cols, 12 - skip_row1)` with the run
flag true). -/
def visitedSecond (size skip : Nat) : List Int :=
  (goto_and_photo_row true (12 - (skip : Int) - ((size / 2 : Nat) : Int))
    (12 - (skip : Int)) 1).1.filterMap accOf

/-! ### Run/stop state machine

`RunPage` instances are Python objects; `App.create_runpage` destroys the
current frame *widget* and installs a fresh instance in
`self.frames[RunPage]`, but the old Python object (and its attributes such as
`running` and `count`) is not mutated by that.  The embedding therefore keeps
every instance ever created, addressed by an instance id, and records which
id `self.frames[RunPage]` currently holds. -/

/-- The attributes of one `RunPage` instance that the claims are about:
`self.running`, `self.count`, the text/role of the run button (`True` =
"Start"), whether the three phase-entry frames are enabled, and whether the
Tk widget has been destroyed. -/
structure RunPageState where
  running : Bool
  count : Nat
  buttonStart : Bool
  framesEnabled : Bool
  destroyed : Bool
deriving DecidableEq

/-- A fresh `RunPage` as built by `RunPage.__init__` /
`create_run_page_ui`: `running = False`, `count = 0`, button shows "Start",
phase entries enabled. -/
def initRunPage : RunPageState :=
  { running := false, count := 0, buttonStart := true,
    framesEnabled := true, destroyed := false }

/-- The application state: all `RunPage` instances ever created (addressed
by id, ids `≥ nextId` not yet used), and the id currently stored in
`App.frames[RunPage]`. -/
structure AppState where
  pages : Nat → RunPageState
  nextId : Nat
  current : Nat

/-- Mutate the current `RunPage` instance in place. -/
def updatePage (a : AppState) (f : RunPageState → RunPageState) : AppState :=
  { a with pages := fun j => if j = a.current then f (a.pages j) else a.pages j }

/-- `App.create_runpage`: destroy the existing `RunPage` frame (widget
destruction; the Python object's attributes are untouched) and install a
fresh instance in `frames[RunPage]`. -/
def create_runpage (a : AppState) : AppState :=
  let a' := updatePage a (fun p => { p with destroyed := true })
  { pages := fun j => if j = a.nextId then initRunPage else a'.pages j,
    nextId := a.nextId + 1,
    current := a.nextId }

/-- `RunPage.run_program`: reconfigure the button to "Stop", disable the
phase-entry frames, set `self.running = True` (and start the first cycle,
modelled separately by `run_cycle`). -/
def run_program (a : AppState) : AppState :=
  updatePage a (fun p =>
    { p with buttonStart := false, framesEnabled := false, running := true })

/-- `RunPage.stop_program`: reconfigure the button back to "Start",
re-enable the phase-entry frames, and call `App.create_runpage`.  Note that
it performs no assignment to `self.running`. -/
def stop_program (a : AppState) : AppState :=
  create_runpage (updatePage a (fun p =>
    { p with buttonStart := true, framesEnabled := true }))

/-- The application right after `App.initialise_ui`: one `RunPage` instance
(id 0) in its initial state. -/
def appInit : AppState :=
  { pages := fun _ => initRunPage, nextId := 1, current := 0 }

/-! ### Stage text protocol and location store -/

/-- Python `str(n)` for a non-negative integer, as a character list:
auxiliary fuel-bounded recursion (`fuel > n` suffices). -/
def decCharsAux : Nat → Nat → List Char
  | 0, _ => []
  | fuel + 1, n =>
      if n < 10 then [Nat.digitChar n]
      else decCharsAux fuel (n / 10) ++ [Nat.digitChar (n % 10)]

/-- Python `str(n)` for a non-negative integer: unpadded decimal digits. -/
def decChars (n : Nat) : List Char := decCharsAux (n + 1) n

/-- One step of Python `int(s)` on a decimal string. -/
def parseStep (a : Nat) (c : Char) : Nat := a * 10 + (c.toNat - 48)

/-- Python `int(s)` on a string of decimal digits. -/
def parseDec (l : List Char) : Nat := l.foldl parseStep 0

/-- The character set of Python `s.strip('g\r\n')` in
`SidePage.set_x_and_y`. -/
def gset : List Char := ['g', '\r', '\n']

/-- Python `s.lstrip(cs)` on a character list. -/
def pyLstrip (l cs : List Char) : List Char :=
  l.dropWhile (fun c => decide (c ∈ cs))

/-- Python `s.rstrip(cs)` on a character list. -/
def pyRstrip (l cs : List Char) : List Char :=
  (l.reverse.dropWhile (fun c => decide (c ∈ cs))).reverse

/-- Python `s.strip(cs)` on a character list. -/
def pyStrip (l cs : List Char) : List Char := pyRstrip (pyLstrip l cs) cs

/-- `SidePage.set_x_and_y(col, row)`: recover the displayed x and y strings
as `col.strip('g\r\n')[1:]` and `row.strip('g\r\n')[1:]`. -/
def set_x_and_y (col row : List Char) : List Char × List Char :=
  ((pyStrip col gset).drop 1, (pyStrip row gset).drop 1)

/-- The command pair stored by `SidePage.update_locs` for a coordinate
`(x, y)`: `row = f'g2{y}'`, `col = f'g1{x}'` (no line terminator; the
terminator is added by `save_locs`). -/
def update_locs_entry (x y : Nat) : List Char × List Char :=
  ('g' :: '2' :: decChars y, 'g' :: '1' :: decChars x)

/-- A whole 12-entry table of coordinates in the stored (edited)
representation. -/
def encodeTable (t : List (Nat × Nat)) : List (List Char × List Char) :=
  t.map (fun p => update_locs_entry p.1 p.2)

/-- Numeric coordinate `(x, y)` recovered from a stored `[row, col]` command
pair the way the editing surface does (`set_x_and_y` then integer
parsing). -/
def decodeEntry (rc : List Char × List Char) : Nat × Nat :=
  let xy := set_x_and_y rc.2 rc.1
  (parseDec xy.1, parseDec xy.2)

/-- CRLF line terminator. -/
def crlf : List Char := ['\r', '\n']

/-- `SidePage.location_files`: the per-camera file paths (source line:
`self.location_files = ['samples_loc.txt', 'samples_loc.txt']`). -/
def location_files : List String := ["samples_loc.txt", "samples_loc.txt"]

/-- Default used below when indexing `location_files` (Python raises
`IndexError` out of range; the claims only use cameras 0 and 1, both in
range). -/
def dfltPath : String := ""

/-- The bytes `SidePage.save_locs` writes for one camera's table: for each
entry, the line `f'{row[0]}\r\n'` then the line `f'{row[1]}\r\n'`. -/
def renderLines : List (List Char × List Char) → List Char
  | [] => []
  | rc :: rest => rc.1 ++ (crlf ++ (rc.2 ++ (crlf ++ renderLines rest)))

/-- `SidePage.save_locs`: overwrite the file at
`self.location_files[camera]` with the rendered table; the file system is a
map from path to optional contents. -/
def save_locs (camera : Nat) (table : List (List Char × List Char))
    (fs : String → Option (List Char)) : String → Option (List Char) :=
  fun path =>
    if path = List.getD location_files camera dfltPath then
      some (renderLines table)
    else fs path

/-- First pass of Python `bytes.splitlines()`: each two-character terminator
`\r\n` counts as a single line break, so rewrite it to `\n`. -/
def normNewlines : List Char → List Char
  | [] => []
  | '\r' :: '\n' :: rest => '\n' :: normNewlines rest
  | c :: rest => c :: normNewlines rest

/-- Second pass of Python `bytes.splitlines()`: split on the single-character
terminators `\n` and `\r`, with no trailing empty line for a trailing
terminator. -/
def splitTerm : List Char → List (List Char)
  | [] => []
  | c :: rest =>
      if c = '\n' ∨ c = '\r' then [] :: splitTerm rest
      else
        match splitTerm rest with
        | [] => [[c]]
        | l :: ls => (c :: l) :: ls

/-- Python `bytes.splitlines()`: split on `\r\n`, `\r` or `\n`, no trailing
empty line for a trailing terminator. -/
def bytesSplitlines (l : List Char) : List (List Char) :=
  splitTerm (normNewlines l)

/-- `np.array(...).reshape(12, 2)` on a flat list of 24 lines: consume the
lines in consecutive (row, col) pairs. -/
def chunkPairs : List (List Char) → List (List Char × List Char)
  | a :: b :: rest => (a, b) :: chunkPairs rest
  | _ => []

/-- The preset table of `read_sample_locs` (used when the file is absent);
note the entries embed their own `\r\n`, unlike the edited representation. -/
def presetLocations : List (List Char × List Char) :=
  [("g229000\r\n".toList, "g10500\r\n".toList),
   ("g229000\r\n".toList, "g110400\r\n".toList),
   ("g229000\r\n".toList, "g120200\r\n".toList),
   ("g229000\r\n".toList, "g130400\r\n".toList),
   ("g229000\r\n".toList, "g140400\r\n".toList),
   ("g229000\r\n".toList, "g150500\r\n".toList),
   ("g222100\r\n".toList, "g150500\r\n".toList),
   ("g222100\r\n".toList, "g140400\r\n".toList),
   ("g222100\r\n".toList, "g130400\r\n".toList),
   ("g222100\r\n".toList, "g120200\r\n".toList),
   ("g222100\r\n".toList, "g110400\r\n".toList),
   ("g222100\r\n".toList, "g10500\r\n".toList)]

/-- `read_sample_locs(filename)`: `none` input models `FileNotFoundError`
(caught: preset locations are returned); on file contents, split into lines,
drop empty lines, `rstrip('\n')` each, and reshape into 12 (row, col) pairs
— `reshape` raises (here: `none`, the error propagates) unless there are
exactly 24 lines. -/
def read_sample_locs : Option (List Char) → Option (List (List Char × List Char))
  | none => some presetLocations
  | some content =>
      let byte_values := bytesSplitlines content
      let byte_values := byte_values.filter (fun l => !l.isEmpty)
      let string_values := byte_values.map (fun l => pyRstrip l ['\n'])
      if string_values.length = 24 then some (chunkPairs string_values)
      else none

/-! ### Auxiliary definitions for the proofs and claims -/

/-- A line that can survive the save/load pipeline unchanged: non-empty and
free of line terminators. -/
def cleanLine (l : List Char) : Prop :=
  l ≠ [] ∧ ∀ c ∈ l, c ≠ '\n' ∧ c ≠ '\r'

/-- The flat line sequence of a table: row line, col line, row line, … -/
def pairFlat : List (List Char × List Char) → List (List Char)
  | [] => []
  | rc :: rest => rc.1 :: rc.2 :: pairFlat rest

/-- Step-discipline of a cycle stopped at suspension `k`: every stage
access and every capture that executes carries a suspension tag `≤ k`,
i.e. happened no later than the suspension at which the stop took
effect. -/
def stepOkTag (k : Nat) (p : Nat × Ev) : Bool :=
  match p.2 with
  | Ev.accessE _ => decide (p.1 ≤ k)
  | Ev.captureE _ => decide (p.1 ≤ k)
  | _ => true

/-! ### Remaining definitions used by the claims -/

/-- Is this step a capture? -/
def isCapture (p : Nat × Ev) : Bool :=
  match p.2 with
  | Ev.captureE _ => true
  | _ => false

/-- Modelled from the spec (§4.4 step 5): the active inter-cycle interval in
seconds — `phase1_interval_minutes * 60` if the elapsed run time is strictly
below `phase_duration_hours` hours, else `phase2_interval_minutes * 60`. -/
def specInterval (p1 p2 dur elapsedMicro : Nat) : Int :=
  if elapsedMicro < dur * 3600000000 then (p1 : Int) * 60 else (p2 : Int) * 60

/-- Modelled from the spec (§4.4 steps 6–7): the inter-cycle wait in
seconds, `max(interval - sample_size * 25, 0)`. -/
def specWait (size p1 p2 dur elapsedMicro : Nat) : Int :=
  max (specInterval p1 p2 dur elapsedMicro - (size : Int) * 25) 0

/-- A malformed location file: 23 non-empty CRLF-terminated lines. -/
def badContent : List Char :=
  renderLines (encodeTable [(0, 0), (1, 1), (2, 2), (3, 3), (4, 4), (5, 5),
    (6, 6), (7, 7), (8, 8), (9, 9), (10, 10)]) ++ ("g20\r\n".toList)

/-- A concrete 12-entry coordinate table within the stage bounds. -/
def sampleTable : List (Nat × Nat) :=
  [(500, 29000), (10400, 29000), (20200, 29000), (30400, 29000),
   (40400, 29000), (50500, 29000), (50500, 22100), (40400, 22100),
   (30400, 22100), (20200, 22100), (10400, 22100), (500, 22100)]

/-- The file system with no files (every `open` raises
`FileNotFoundError`). -/
def emptyFs : String → Option (List Char) := fun _ => none

/-! ### Lemmas: decimal rendering and parsing -/

theorem digitChar_not_gset (m : Nat) (h : m < 10) : Nat.digitChar m ∉ gset := by
  interval_cases m <;> decide

theorem digitChar_toNat (m : Nat) (h : m < 10) : (Nat.digitChar m).toNat = 48 + m := by
  interval_cases m <;> decide

theorem decCharsAux_mem :
    ∀ fuel n, n < fuel → ∀ c ∈ decCharsAux fuel n, ∃ m, m < 10 ∧ c = Nat.digitChar m := by
  intro fuel
  induction fuel with
  | zero => intro n h; omega
  | succ f ih =>
      intro n h c hc
      by_cases h10 : n < 10
      · simp only [decCharsAux, if_pos h10, List.mem_singleton] at hc
        exact ⟨n, h10, hc⟩
      · simp only [decCharsAux, if_neg h10, List.mem_append, List.mem_singleton] at hc
        rcases hc with hc | hc
        · exact ih (n / 10) (by omega) c hc
        · exact ⟨n % 10, by omega, hc⟩

theorem decChars_mem {n : Nat} {c : Char} (hc : c ∈ decChars n) :
    ∃ m, m < 10 ∧ c = Nat.digitChar m :=
  decCharsAux_mem (n + 1) n (Nat.lt_succ_self n) c hc

theorem decChars_not_gset {n : Nat} : ∀ c ∈ decChars n, c ∉ gset := by
  intro c hc
  obtain ⟨m, hm, rfl⟩ := decChars_mem hc
  exact digitChar_not_gset m hm

theorem decCharsAux_ne_nil : ∀ fuel n, 0 < fuel → decCharsAux fuel n ≠ [] := by
  intro fuel n h
  cases fuel with
  | zero => omega
  | succ f =>
      by_cases h10 : n < 10
      · simp [decCharsAux, h10]
      · simp [decCharsAux, h10]

theorem decChars_ne_nil (n : Nat) : decChars n ≠ [] :=
  decCharsAux_ne_nil (n + 1) n (Nat.succ_pos n)

theorem decCharsAux_foldl :
    ∀ fuel n a, n < fuel →
      List.foldl parseStep a (decCharsAux fuel n) =
        a * 10 ^ (decCharsAux fuel n).length + n := by
  intro fuel
  induction fuel with
  | zero => intro n a h; omega
  | succ f ih =>
      intro n a h
      by_cases h10 : n < 10
      · simp only [decCharsAux, if_pos h10, List.foldl_cons, List.foldl_nil,
          List.length_singleton, pow_one, parseStep]
        rw [digitChar_toNat n h10]
        omega
      · have hdiv : n / 10 < f := by omega
        simp only [decCharsAux, if_neg h10, List.foldl_append, List.foldl_cons,
          List.foldl_nil, List.length_append, List.length_singleton]
        rw [ih (n / 10) a hdiv]
        simp only [parseStep]
        rw [digitChar_toNat (n % 10) (by omega)]
        have hmod : 48 + n % 10 - 48 = n % 10 := by omega
        rw [hmod, pow_succ]
        have hsplit : (a * 10 ^ (decCharsAux f (n / 10)).length + n / 10) * 10 + n % 10 =
            a * (10 ^ (decCharsAux f (n / 10)).length * 10) + (n / 10 * 10 + n % 10) := by ring
        have hrec : n / 10 * 10 + n % 10 = n := by omega
        rw [hsplit, hrec]

theorem parseDec_decChars (n : Nat) : parseDec (decChars n) = n := by
  have := decCharsAux_foldl (n + 1) n 0 (Nat.lt_succ_self n)
  simpa [parseDec, decChars] using this

/-! ### Lemmas: `strip` and `splitlines` -/

theorem dropWhile_eq_self_of {p : Char → Bool} :
    ∀ l : List Char, (∀ x ∈ l, p x = false) → l.dropWhile p = l := by
  intro l h
  cases l with
  | nil => rfl
  | cons c t => simp [List.dropWhile_cons, h c (List.mem_cons_self c t)]

theorem pyRstrip_no_sep {l cs : List Char} (h : ∀ c ∈ l, c ∉ cs) :
    pyRstrip l cs = l := by
  unfold pyRstrip
  rw [dropWhile_eq_self_of]
  · exact l.reverse_reverse
  · intro x hx
    simp only [decide_eq_false_iff_not]
    exact h x (List.mem_reverse.mp hx)

theorem pyRstrip_crlf {l cs : List Char} (hr : '\r' ∈ cs) (hn : '\n' ∈ cs)
    (h : ∀ c ∈ l, c ∉ cs) : pyRstrip (l ++ crlf) cs = l := by
  unfold pyRstrip
  have : (l ++ crlf).reverse = '\n' :: '\r' :: l.reverse := by
    simp [crlf]
  rw [this]
  simp only [List.dropWhile_cons, decide_eq_true_eq, hr, hn, if_pos]
  rw [dropWhile_eq_self_of]
  · exact l.reverse_reverse
  · intro x hx
    simp only [decide_eq_false_iff_not]
    exact h x (List.mem_reverse.mp hx)

theorem pyLstrip_g {d : Char} (hd : d ∉ gset) (t : List Char) :
    pyLstrip ('g' :: d :: t) gset = d :: t := by
  have hd' : ¬(d = 'g' ∨ d = '\r' ∨ d = '\n') := by
    simpa [gset] using hd
  unfold pyLstrip
  simp [List.dropWhile_cons, gset, hd']

/-- Decoding a stored command `'g' :: d :: digits` (the protocol prefix, the
axis digit, then the payload digits): `strip('g\r\n')` removes exactly the
leading `g`, with or without a trailing CRLF. -/
theorem pyStrip_cmd {d : Char} (hd : d ∉ gset) {ds : List Char}
    (hds : ∀ c ∈ ds, c ∉ gset) :
    pyStrip ('g' :: d :: ds) gset = d :: ds ∧
    pyStrip (('g' :: d :: ds) ++ crlf) gset = d :: ds := by
  have hall : ∀ c ∈ d :: ds, c ∉ gset := by
    intro c hc
    rcases List.mem_cons.mp hc with rfl | hc
    · exact hd
    · exact hds c hc
  constructor
  · unfold pyStrip
    rw [pyLstrip_g hd, pyRstrip_no_sep hall]
  · unfold pyStrip
    have : ('g' :: d :: ds) ++ crlf = 'g' :: d :: (ds ++ crlf) := by simp
    rw [this, pyLstrip_g hd]
    have : d :: (ds ++ crlf) = (d :: ds) ++ crlf := by simp
    rw [this, pyRstrip_crlf (by decide) (by decide) hall]

theorem normNewlines_crlf (t : List Char) :
    normNewlines ('\r' :: '\n' :: t) = '\n' :: normNewlines t := rfl

theorem normNewlines_cons {c : Char} (hc : c ≠ '\r') (t : List Char) :
    normNewlines (c :: t) = c :: normNewlines t := by
  rw [normNewlines.eq_def]
  split
  next heq => simp at heq
  next rest heq =>
    have h1 : c = '\r' := by injection heq
    exact absurd h1 hc
  next c' rest' hne heq =>
    injection heq with h1 h2
    subst h1
    subst h2
    rfl

theorem splitTerm_cons_nl (t : List Char) :
    splitTerm ('\n' :: t) = [] :: splitTerm t := by
  simp [splitTerm]

theorem splitTerm_append {line : List Char}
    (h : ∀ c ∈ line, c ≠ '\n' ∧ c ≠ '\r') (rest : List Char) :
    splitTerm (line ++ '\n' :: rest) = line :: splitTerm rest := by
  induction line with
  | nil => simp [splitTerm]
  | cons c l ih =>
      have hc := h c (List.mem_cons_self c l)
      have hl : ∀ x ∈ l, x ≠ '\n' ∧ x ≠ '\r' := fun x hx => h x (List.mem_cons_of_mem c hx)
      have hcond : ¬(c = '\n' ∨ c = '\r') := by
        rintro (rfl | rfl)
        · exact hc.1 rfl
        · exact hc.2 rfl
      simp only [List.cons_append, splitTerm, if_neg hcond, List.append_eq]
      rw [ih hl]

theorem normNewlines_line_append {line : List Char}
    (h : ∀ c ∈ line, c ≠ '\n' ∧ c ≠ '\r') (rest : List Char) :
    normNewlines (line ++ '\r' :: '\n' :: rest) = line ++ '\n' :: normNewlines rest := by
  induction line with
  | nil => simp [normNewlines_crlf]
  | cons c l ih =>
      have hc := h c (List.mem_cons_self c l)
      have hl : ∀ x ∈ l, x ≠ '\n' ∧ x ≠ '\r' := fun x hx => h x (List.mem_cons_of_mem c hx)
      simp only [List.cons_append]
      rw [normNewlines_cons hc.2, ih hl]

/-- Splitting a CRLF-terminated line off the front of a byte string. -/
theorem bytesSplitlines_line {line : List Char}
    (h : ∀ c ∈ line, c ≠ '\n' ∧ c ≠ '\r') (rest : List Char) :
    bytesSplitlines (line ++ '\r' :: '\n' :: rest) = line :: bytesSplitlines rest := by
  unfold bytesSplitlines
  rw [normNewlines_line_append h, splitTerm_append h]

/-! ### Lemmas: save/load round trip -/

theorem bytesSplitlines_renderLines :
    ∀ t : List (List Char × List Char),
      (∀ rc ∈ t, cleanLine rc.1 ∧ cleanLine rc.2) →
      bytesSplitlines (renderLines t) = pairFlat t := by
  intro t
  induction t with
  | nil => intro _; rfl
  | cons rc rest ih =>
      intro h
      have h1 := (h rc (List.mem_cons_self rc rest)).1.2
      have h2 := (h rc (List.mem_cons_self rc rest)).2.2
      have hrest : ∀ p ∈ rest, cleanLine p.1 ∧ cleanLine p.2 :=
        fun p hp => h p (List.mem_cons_of_mem rc hp)
      have hshape : renderLines (rc :: rest) =
          rc.1 ++ '\r' :: '\n' :: (rc.2 ++ '\r' :: '\n' :: renderLines rest) := by
        simp [renderLines, crlf]
      rw [hshape, bytesSplitlines_line h1, bytesSplitlines_line h2, ih hrest]
      rfl

theorem filter_nonempty {L : List (List Char)} (h : ∀ l ∈ L, l ≠ []) :
    L.filter (fun l => !l.isEmpty) = L := by
  induction L with
  | nil => rfl
  | cons a t ih =>
      have ha : a ≠ [] := h a (List.mem_cons_self a t)
      have hpa : (!a.isEmpty) = true := by
        cases a with
        | nil => exact absurd rfl ha
        | cons x xs => rfl
      rw [List.filter_cons, if_pos hpa, ih (fun l hl => h l (List.mem_cons_of_mem a hl))]

theorem map_fix_of {f : List Char → List Char} :
    ∀ L : List (List Char), (∀ l ∈ L, f l = l) → L.map f = L := by
  intro L
  induction L with
  | nil => intro _; rfl
  | cons a t ih =>
      intro h
      rw [List.map_cons, h a (List.mem_cons_self a t),
        ih (fun l hl => h l (List.mem_cons_of_mem a hl))]

theorem pairFlat_length (t : List (List Char × List Char)) :
    (pairFlat t).length = 2 * t.length := by
  induction t with
  | nil => rfl
  | cons rc rest ih => simp [pairFlat, ih]; omega

theorem chunkPairs_pairFlat (t : List (List Char × List Char)) :
    chunkPairs (pairFlat t) = t := by
  induction t with
  | nil => rfl
  | cons rc rest ih => simp [pairFlat, chunkPairs, ih]

theorem pairFlat_clean :
    ∀ t : List (List Char × List Char),
      (∀ rc ∈ t, cleanLine rc.1 ∧ cleanLine rc.2) →
      ∀ l ∈ pairFlat t, cleanLine l := by
  intro t
  induction t with
  | nil => intro _ l hl; cases hl
  | cons rc rest ih =>
      intro h l hl
      rcases List.mem_cons.mp hl with rfl | hl'
      · exact (h rc (List.mem_cons_self rc rest)).1
      · rcases List.mem_cons.mp hl' with rfl | hl''
        · exact (h rc (List.mem_cons_self rc rest)).2
        · exact ih (fun p hp => h p (List.mem_cons_of_mem rc hp)) l hl''

/-- Reading back exactly what `save_locs` rendered reproduces the stored
table, for a 12-entry table of clean lines. -/
theorem read_sample_locs_renderLines {t : List (List Char × List Char)}
    (h12 : t.length = 12) (h : ∀ rc ∈ t, cleanLine rc.1 ∧ cleanLine rc.2) :
    read_sample_locs (some (renderLines t)) = some t := by
  have hmem : ∀ l ∈ pairFlat t, cleanLine l := pairFlat_clean t h
  show (let byte_values := bytesSplitlines (renderLines t)
        let byte_values := byte_values.filter (fun l => !l.isEmpty)
        let string_values := byte_values.map (fun l => pyRstrip l ['\n'])
        if string_values.length = 24 then some (chunkPairs string_values)
        else none) = some t
  simp only []
  rw [bytesSplitlines_renderLines t h]
  rw [filter_nonempty (fun l hl => (hmem l hl).1)]
  rw [map_fix_of (pairFlat t) (fun l hl => pyRstrip_no_sep (by
    intro c hc
    simp only [List.mem_singleton]
    exact ((hmem l hl).2 c hc).1))]
  rw [if_pos (by rw [pairFlat_length, h12])]
  rw [chunkPairs_pairFlat]

theorem not_gset_clean {c : Char} (h : c ∉ gset) : c ≠ '\n' ∧ c ≠ '\r' := by
  constructor
  · rintro rfl; exact h (by decide)
  · rintro rfl; exact h (by decide)

theorem cleanLine_entry {d : Char} (hd : d ∉ gset) (hdc : d ≠ '\n' ∧ d ≠ '\r')
    (n : Nat) : cleanLine ('g' :: d :: decChars n) := by
  constructor
  · simp
  · intro c hc
    rcases List.mem_cons.mp hc with rfl | hc'
    · exact ⟨by decide, by decide⟩
    · rcases List.mem_cons.mp hc' with rfl | hc''
      · exact hdc
      · exact not_gset_clean (decChars_not_gset c hc'')

/-- Decoding a freshly encoded entry recovers the numeric coordinates. -/
theorem decodeEntry_update_locs_entry (x y : Nat) :
    decodeEntry (update_locs_entry x y) = (x, y) := by
  unfold decodeEntry update_locs_entry set_x_and_y
  have hx := (pyStrip_cmd (d := '1') (by decide) (decChars_not_gset (n := x))).1
  have hy := (pyStrip_cmd (d := '2') (by decide) (decChars_not_gset (n := y))).1
  simp only [hx, hy, List.drop_succ_cons, List.drop_zero]
  rw [parseDec_decChars, parseDec_decChars]

/-! ### Lemmas: scheduler sweeps and cancellation -/

theorem takeThrough_cons_pos {q : α → Bool} {a : α} (t : List α)
    (h : q a = true) : takeThrough q (a :: t) = [a] := by
  simp [takeThrough, h]

theorem takeThrough_cons_neg {q : α → Bool} {a : α} (t : List α)
    (h : q a = false) : takeThrough q (a :: t) = a :: takeThrough q t := by
  simp [takeThrough, h]

theorem takeThrough_singleton (q : α → Bool) (a : α) :
    takeThrough q [a] = [a] := by
  by_cases h : q a = true
  · exact takeThrough_cons_pos [] h
  · rw [takeThrough_cons_neg [] (Bool.of_not_eq_true h)]
    rfl

theorem takeThrough_initial {q : α → Bool} :
    ∀ l : List α, ∃ rest, takeThrough q l ++ rest = l := by
  intro l
  induction l with
  | nil => exact ⟨[], rfl⟩
  | cons a t ih =>
      by_cases h : q a = true
      · rw [takeThrough_cons_pos t h]
        exact ⟨t, rfl⟩
      · rw [takeThrough_cons_neg t (Bool.of_not_eq_true h)]
        obtain ⟨rest, hrest⟩ := ih
        exact ⟨rest, by rw [List.cons_append, hrest]⟩

theorem photoRow_true_visited :
    ∀ (l : List Int) (s : Nat), (photoRow true l s).1.filterMap accOf = l := by
  intro l
  induction l with
  | nil => intro s; rfl
  | cons i rest ih =>
      intro s
      show ((photoIter true i s).1 ++
        (photoRow true rest (photoIter true i s).2).1).filterMap accOf = i :: rest
      rw [List.filterMap_append, ih]
      rfl

/-- Step discipline of a frozen sweep: appending the sweep blocks of
`photoRow` in front of any continuation `R`, the executed prefix (through
the entry of suspension `k`) contains only accesses and captures with tag
`≤ k`, provided the sweep starts with at most `k` suspensions completed
and the continuation has the same property whenever the sweep finishes
without reaching suspension `k`. -/
theorem photoRow_takeThrough (k : Nat) :
    ∀ (l : List Int) (s : Nat) (R : List (Nat × Ev)), s ≤ k →
      ((photoRow true l s).2 ≤ k →
        (takeThrough (isSleepAt k) R).all (stepOkTag k) = true) →
      (takeThrough (isSleepAt k) ((photoRow true l s).1 ++ R)).all (stepOkTag k) = true := by
  intro l
  induction l with
  | nil =>
      intro s R hs hR
      simpa using hR hs
  | cons i rest ih =>
      intro s R hs hR
      have hshape : (photoRow true (i :: rest) s).1 =
          (s, Ev.accessE i) :: (s, Ev.sleepE 500) :: (s + 1, Ev.sleepE 1000) ::
          (s + 2, Ev.captureE i) :: (s + 2, Ev.sleepE 0) ::
          (photoRow true rest (s + 3)).1 := by
        simp [photoRow, photoIter]
      have hend : (photoRow true (i :: rest) s).2 = (photoRow true rest (s + 3)).2 := by
        simp [photoRow, photoIter]
      rw [hshape]
      simp only [List.cons_append]
      rw [takeThrough_cons_neg _ (show isSleepAt k (s, Ev.accessE i) = false from rfl)]
      by_cases h1 : k = s
      · rw [takeThrough_cons_pos _ (by simp [isSleepAt, h1])]
        simp [stepOkTag, hs]
      · rw [takeThrough_cons_neg _ (by simp [isSleepAt]; omega)]
        by_cases h2 : k = s + 1
        · rw [takeThrough_cons_pos _ (by simp [isSleepAt, h2])]
          simp [stepOkTag]
          omega
        · rw [takeThrough_cons_neg _ (by simp [isSleepAt]; omega)]
          have h3 : s + 2 ≤ k := by omega
          rw [takeThrough_cons_neg _ (show isSleepAt k (s + 2, Ev.captureE i) = false from rfl)]
          by_cases h4 : k = s + 2
          · rw [takeThrough_cons_pos _ (by simp [isSleepAt, h4])]
            simp [stepOkTag]
            omega
          · rw [takeThrough_cons_neg _ (by simp [isSleepAt]; omega)]
            have h5 : s + 3 ≤ k := by omega
            have hRrec := hR
            rw [hend] at hRrec
            have := ih (s + 3) R h5 hRrec
            simp only [List.all_cons, this, Bool.and_true]
            simp [stepOkTag]
            omega

theorem mem_pyRange {a b i : Int} : i ∈ pyRange a b ↔ a ≤ i ∧ i < b := by
  unfold pyRange
  constructor
  · intro h
    obtain ⟨k, hk, he⟩ := List.mem_map.mp h
    rw [List.mem_range] at hk
    omega
  · intro h
    apply List.mem_map.mpr
    refine ⟨(i - a).toNat, ?_, ?_⟩
    · rw [List.mem_range]; omega
    · omega

theorem pyRange_sorted (a b : Int) : (pyRange a b).Pairwise (· < ·) := by
  unfold pyRange
  refine (List.pairwise_lt_range _).map _ (fun x y h => ?_)
  show a + (x : Int) < a + (y : Int)
  have h2 : x < y := h
  omega

theorem concat_getLast {α : Type} (l : List α) (x : α) :
    (l ++ [x]).getLast? = some x := by
  induction l with
  | nil => rfl
  | cons a t ih =>
      rw [List.cons_append, List.getLast?_cons, ih]
      cases t <;> rfl

/-! ### Claims -/

/-- C1, counterexample.  Stop is pressed during suspension 1 (the first
0.5 s settle sleep of the visit of index 0; configuration
`sample_size = 4`, `skip_row = 0`, so the first sweep covers `[0, 2)`).
The steps that execute are exactly `count += 1`, the `sleep(0)` yield, the
stage access of index 0, and the entry of the settle sleep — then the cycle
freezes (the destroyed widget's pending `after` callback is gone, so the
`wait_variable` never resumes).  The `cycles_completed` increment has thus
already executed for this aborted cycle even though not a single capture of
either sweep ran, refuting the claim that the counter is not incremented
for the aborted cycle (equivalently, that its increment happens only after
both sweeps have completed). -/
theorem C1_counterexample :
    stoppedCycle 4 0 5 30 30 0 1 =
      [(0, Ev.incCountE), (0, Ev.sleepE 0), (1, Ev.accessE 0), (1, Ev.sleepE 500)] ∧
    Ev.incCountE ∈ (stoppedCycle 4 0 5 30 30 0 1).map Prod.snd ∧
    (stoppedCycle 4 0 5 30 30 0 1).filter isCapture = [] := by
  decide

/-- C1 (corrected): if `stop()` is called while a capture sweep is in
progress — during suspension `k` of the cycle — the cycle freezes at that
suspension, so the executed steps are an initial segment of the cycle's
trace and every stage-move (access) and capture step that executed carries
a suspension tag `≤ k`: no stage-move or capture step of the aborted cycle
runs after that suspension point.  However, the `cycles_completed`
increment is the very first step of the cycle, executed before both
sweeps, so it has already run for the aborted cycle whatever `k` is (its
value is only discarded because `stop_program` replaces the `RunPage` with
a fresh instance, see C3). -/
theorem C1_stop_discipline (size skip k p1 p2 dur e : Nat) :
    (run_cycle size skip true p1 p2 dur e).head? = some (0, Ev.incCountE) ∧
    (∃ rest, stoppedCycle size skip p1 p2 dur e k ++ rest =
      run_cycle size skip true p1 p2 dur e) ∧
    (stoppedCycle size skip p1 p2 dur e k).all (stepOkTag k) = true ∧
    Ev.incCountE ∈ (stoppedCycle size skip p1 p2 dur e k).map Prod.snd := by
  refine ⟨?_, takeThrough_initial _, ?_, ?_⟩
  · unfold run_cycle
    rfl
  · unfold stoppedCycle run_cycle goto_and_photo_row
    rw [if_pos rfl]
    rw [takeThrough_cons_neg _ (show isSleepAt k (0, Ev.incCountE) = false from rfl)]
    by_cases h0 : k = 0
    · rw [takeThrough_cons_pos _ (by simp [isSleepAt, h0])]
      rfl
    · rw [takeThrough_cons_neg _ (by simp [isSleepAt]; omega)]
      simp only [List.all_cons]
      have hone : 1 ≤ k := by omega
      have hmain := photoRow_takeThrough k
        (pyRange (skip : Int) (((size / 2 : Nat) : Int) + (skip : Int))) 1
        ((photoRow true (pyRange (12 - (skip : Int) - ((size / 2 : Nat) : Int))
            (12 - (skip : Int)))
          (photoRow true (pyRange (skip : Int) (((size / 2 : Nat) : Int) + (skip : Int))) 1).2).1 ++
         [((photoRow true (pyRange (12 - (skip : Int) - ((size / 2 : Nat) : Int))
              (12 - (skip : Int)))
            (photoRow true (pyRange (skip : Int) (((size / 2 : Nat) : Int) + (skip : Int))) 1).2).2,
           Ev.sleepE (if e < dur * 3600000000 then
             (max ((p1 : Int) * 60 - (size : Int) * 25) 0).toNat * 1000
           else
             (max ((p2 : Int) * 60 - (size : Int) * 25) 0).toNat * 1000))])
        hone ?_
      · rw [hmain]
        rfl
      · intro hk1
        apply photoRow_takeThrough k _ _ _ hk1
        intro _
        rw [takeThrough_singleton]
        rfl
  · unfold stoppedCycle run_cycle
    rw [if_pos rfl]
    rw [takeThrough_cons_neg _ (show isSleepAt k (0, Ev.incCountE) = false from rfl)]
    exact List.mem_map.mpr ⟨(0, Ev.incCountE), List.mem_cons_self _ _, rfl⟩

/-- C3, counterexample.  Start from the freshly initialised application,
press Start (`run_program`), then press Stop (`stop_program`).  The
in-flight sweep runs on the instance that was current when the run started
(id 0); after `stop_program` that instance's `running` attribute is still
`True` — `stop_program` never assigns `self.running = False`; it only
replaces `frames[RunPage]` with a fresh instance — so the flag observed by
the in-flight sweep does *not* become false. -/
theorem C3_counterexample :
    (run_program appInit).current = 0 ∧
    ((run_program appInit).pages 0).running = true ∧
    ((stop_program (run_program appInit)).pages 0).running = true := by
  decide

/-- C3 (corrected): taken with the run flag true, `stop_program` re-enables
the editing surfaces and replaces `frames[RunPage]` by a fresh instance with
`running = False` and zero counters (the Idle state), but it never mutates
the `running` attribute of the instance that is driving the in-flight sweep
— that instance keeps `running = True` (its widget is merely destroyed). -/
theorem C3_stop_transition (a : AppState) (hc : a.current < a.nextId)
    (hr : (a.pages a.current).running = true) :
    (stop_program a).current = a.nextId ∧
    (stop_program a).pages (stop_program a).current = initRunPage ∧
    ((stop_program a).pages a.current).running = true ∧
    ((stop_program a).pages a.current).buttonStart = true ∧
    ((stop_program a).pages a.current).framesEnabled = true ∧
    ((stop_program a).pages a.current).destroyed = true := by
  have hne : a.current ≠ a.nextId := Nat.ne_of_lt hc
  unfold stop_program create_runpage updatePage
  refine ⟨rfl, ?_, ?_, ?_, ?_, ?_⟩ <;> simp [hne, hr]

/-- C3, witness for the corrected claim at the concrete post-start state. -/
theorem C3_witness :
    (run_program appInit).current < (run_program appInit).nextId ∧
    ((run_program appInit).pages (run_program appInit).current).running = true ∧
    ((stop_program (run_program appInit)).current = (run_program appInit).nextId ∧
     (stop_program (run_program appInit)).pages
       (stop_program (run_program appInit)).current = initRunPage ∧
     ((stop_program (run_program appInit)).pages
       (run_program appInit).current).running = true ∧
     ((stop_program (run_program appInit)).pages
       (run_program appInit).current).buttonStart = true ∧
     ((stop_program (run_program appInit)).pages
       (run_program appInit).current).framesEnabled = true ∧
     ((stop_program (run_program appInit)).pages
       (run_program appInit).current).destroyed = true) :=
  ⟨by decide, by decide,
    C3_stop_transition (run_program appInit) (by decide) (by decide)⟩

/-- C2 (code bug): both entries of `SidePage.location_files` are the same
path `'samples_loc.txt'`, so the two cameras do not have distinct backing
files: `save_locs` for camera 0 writes the very file that backs camera 1
(and vice versa), overwriting the other camera's persisted table. -/
theorem C2_shared_path (t : List (List Char × List Char))
    (fs : String → Option (List Char)) :
    List.getD location_files 0 dfltPath = List.getD location_files 1 dfltPath ∧
    save_locs 0 t fs (List.getD location_files 1 dfltPath) = some (renderLines t) ∧
    save_locs 1 t fs (List.getD location_files 0 dfltPath) = some (renderLines t) := by
  refine ⟨rfl, ?_, ?_⟩
  · unfold save_locs
    rw [if_pos (show List.getD location_files 1 dfltPath =
      List.getD location_files 0 dfltPath from rfl)]
  · unfold save_locs
    rw [if_pos (show List.getD location_files 0 dfltPath =
      List.getD location_files 1 dfltPath from rfl)]

/-- C4, counterexample.  The claim's instantiated sweep intervals are wrong
on both of its examples: with `cols = sample_size // 2` the second sweep is
`range(12 - skip_row - cols, 12 - skip_row)`, which for
`sample_size = 8, skip_row = 0` is `[8, 12)` (not `[4, 8)`), and for
`sample_size = 4, skip_row = 1` is `[9, 11)` (not `[7, 9)`). -/
theorem C4_counterexample :
    visitedSecond 8 0 = [8, 9, 10, 11] ∧ ¬visitedSecond 8 0 = pyRange 4 8 ∧
    visitedSecond 4 1 = [9, 10] ∧ ¬visitedSecond 4 1 = pyRange 7 9 := by
  decide

/-- C4 (corrected): for every `sample_size ∈ {4,6,8,10,12}` and
`skip_row ∈ {0,1}` with `cols = sample_size // 2`, the first sweep visits
exactly the indices `[skip_row, cols + skip_row)` in ascending order and the
second sweep exactly `[12 - skip_row - cols, 12 - skip_row)` in ascending
order; in particular for `sample_size = 8, skip_row = 0` the sweeps are
`[0, 4)` and `[8, 12)` (8 distinct indices, no overlap, indices `[4, 8)`
unvisited), and for `sample_size = 4, skip_row = 1` they are `[1, 3)` and
`[9, 11)`. -/
theorem C4_sweep_ranges (size skip : Nat)
    (hsize : size ∈ ([4, 6, 8, 10, 12] : List Nat))
    (hskip : skip ∈ ([0, 1] : List Nat)) :
    visitedFirst size skip =
      pyRange (skip : Int) (((size / 2 : Nat) : Int) + (skip : Int)) ∧
    visitedSecond size skip =
      pyRange (12 - (skip : Int) - ((size / 2 : Nat) : Int)) (12 - (skip : Int)) ∧
    (∀ i : Int, i ∈ visitedFirst size skip ↔
      (skip : Int) ≤ i ∧ i < ((size / 2 : Nat) : Int) + (skip : Int)) ∧
    (∀ i : Int, i ∈ visitedSecond size skip ↔
      12 - (skip : Int) - ((size / 2 : Nat) : Int) ≤ i ∧ i < 12 - (skip : Int)) ∧
    (visitedFirst size skip).Pairwise (· < ·) ∧
    (visitedSecond size skip).Pairwise (· < ·) ∧
    (visitedFirst 8 0 = [0, 1, 2, 3] ∧ visitedSecond 8 0 = [8, 9, 10, 11] ∧
      (visitedFirst 8 0 ++ visitedSecond 8 0).Nodup ∧
      ∀ i ∈ pyRange 4 8, i ∉ visitedFirst 8 0 ++ visitedSecond 8 0) ∧
    (visitedFirst 4 1 = [1, 2] ∧ visitedSecond 4 1 = [9, 10]) := by
  have h1 : visitedFirst size skip =
      pyRange (skip : Int) (((size / 2 : Nat) : Int) + (skip : Int)) := by
    unfold visitedFirst goto_and_photo_row
    exact photoRow_true_visited _ _
  have h2 : visitedSecond size skip =
      pyRange (12 - (skip : Int) - ((size / 2 : Nat) : Int)) (12 - (skip : Int)) := by
    unfold visitedSecond goto_and_photo_row
    exact photoRow_true_visited _ _
  refine ⟨h1, h2, ?_, ?_, ?_, ?_, ?_, ?_⟩
  · intro i; rw [h1, mem_pyRange]
  · intro i; rw [h2, mem_pyRange]
  · rw [h1]; exact pyRange_sorted _ _
  · rw [h2]; exact pyRange_sorted _ _
  · exact ⟨by decide, by decide, by decide, by decide⟩
  · exact ⟨by decide, by decide⟩

/-- C4, witness for the corrected claim at `sample_size = 4,
skip_row = 1`. -/
theorem C4_witness :
    (4 : Nat) ∈ ([4, 6, 8, 10, 12] : List Nat) ∧
    (1 : Nat) ∈ ([0, 1] : List Nat) ∧
    (visitedFirst 4 1 =
      pyRange ((1 : Nat) : Int) (((4 / 2 : Nat) : Int) + ((1 : Nat) : Int)) ∧
     visitedSecond 4 1 =
      pyRange (12 - ((1 : Nat) : Int) - ((4 / 2 : Nat) : Int)) (12 - ((1 : Nat) : Int)) ∧
     (∀ i : Int, i ∈ visitedFirst 4 1 ↔
       ((1 : Nat) : Int) ≤ i ∧ i < ((4 / 2 : Nat) : Int) + ((1 : Nat) : Int)) ∧
     (∀ i : Int, i ∈ visitedSecond 4 1 ↔
       12 - ((1 : Nat) : Int) - ((4 / 2 : Nat) : Int) ≤ i ∧ i < 12 - ((1 : Nat) : Int)) ∧
     (visitedFirst 4 1).Pairwise (· < ·) ∧
     (visitedSecond 4 1).Pairwise (· < ·) ∧
     (visitedFirst 8 0 = [0, 1, 2, 3] ∧ visitedSecond 8 0 = [8, 9, 10, 11] ∧
       (visitedFirst 8 0 ++ visitedSecond 8 0).Nodup ∧
       ∀ i ∈ pyRange 4 8, i ∉ visitedFirst 8 0 ++ visitedSecond 8 0) ∧
     (visitedFirst 4 1 = [1, 2] ∧ visitedSecond 4 1 = [9, 10])) :=
  ⟨by decide, by decide, C4_sweep_ranges 4 1 (by decide) (by decide)⟩

/-- C5: after a completed cycle the trace ends with the inter-cycle wait,
and that wait is exactly `max(interval - sample_size*25, 0)` seconds
(called as milliseconds, `wait * 1000`), where the interval is
`phase1_interval_minutes * 60` seconds while the elapsed run time is
strictly below `phase_duration_hours` hours and `phase2_interval_minutes *
60` afterwards; in particular for `phase1_interval_minutes = 5` and
`sample_size = 12` the wait is 0 seconds. -/
theorem C5_wait (size skip p1 p2 dur e : Nat) :
    ((run_cycle size skip true p1 p2 dur e).map Prod.snd).getLast? =
      some (Ev.sleepE ((specWait size p1 p2 dur e).toNat * 1000)) ∧
    specWait 12 5 30 30 0 = 0 ∧
    ((run_cycle 12 0 true 5 30 30 0).map Prod.snd).getLast? =
      some (Ev.sleepE 0) := by
  refine ⟨?_, by decide, by decide⟩
  unfold run_cycle
  rw [if_pos (by rfl)]
  simp only [List.map_cons, List.map_append, List.map_cons, List.map_nil]
  have hshape : ∀ (x y : Ev) (A B : List Ev) (z : Ev),
      x :: y :: (A ++ (B ++ [z])) = (x :: y :: (A ++ B)) ++ [z] := by
    intro x y A B z; simp
  rw [hshape, concat_getLast]
  by_cases he : e < dur * 3600000000 <;>
    simp [specWait, specInterval, he]

/-- C6: encode/decode round trip of the wire command pair.  For any
coordinate within the stage bounds, encoding as `row = 'g2' + str(y)`,
`col = 'g1' + str(x)` (the `update_locs` representation) and decoding with
`set_x_and_y` recovers the decimal strings of `x` and `y`, with or without
a trailing CRLF; parsing the recovered strings yields `x` and `y` again. -/
theorem C6_roundtrip (x y : Nat) (hx : x ≤ 59000) (hy : y ≤ 29000) :
    set_x_and_y (update_locs_entry x y).2 (update_locs_entry x y).1 =
      (decChars x, decChars y) ∧
    set_x_and_y ((update_locs_entry x y).2 ++ crlf)
      ((update_locs_entry x y).1 ++ crlf) = (decChars x, decChars y) ∧
    decodeEntry (update_locs_entry x y) = (x, y) := by
  have hx1 := pyStrip_cmd (d := '1') (by decide) (decChars_not_gset (n := x))
  have hy2 := pyStrip_cmd (d := '2') (by decide) (decChars_not_gset (n := y))
  refine ⟨?_, ?_, decodeEntry_update_locs_entry x y⟩
  · unfold set_x_and_y update_locs_entry
    rw [hx1.1, hy2.1]
    rfl
  · unfold set_x_and_y update_locs_entry
    rw [hx1.2, hy2.2]
    rfl

/-- C6, witness at the coordinate (500, 29000). -/
theorem C6_witness :
    (500 : Nat) ≤ 59000 ∧ (29000 : Nat) ≤ 29000 ∧
    (set_x_and_y (update_locs_entry 500 29000).2 (update_locs_entry 500 29000).1 =
      (decChars 500, decChars 29000) ∧
     set_x_and_y ((update_locs_entry 500 29000).2 ++ crlf)
      ((update_locs_entry 500 29000).1 ++ crlf) = (decChars 500, decChars 29000) ∧
     decodeEntry (update_locs_entry 500 29000) = (500, 29000)) :=
  ⟨by decide, by decide, C6_roundtrip 500 29000 (by decide) (by decide)⟩

/-- C7: for any 12-entry table of coordinates within the stage bounds,
saving it with `save_locs` for a camera and loading the same camera's file
back with `read_sample_locs` reproduces the same 12 coordinates in the same
order (after the editing surface's decode). -/
theorem C7_save_load (t : List (Nat × Nat)) (h12 : t.length = 12)
    (hx : ∀ p ∈ t, p.1 ≤ 59000) (hy : ∀ p ∈ t, p.2 ≤ 29000)
    (camera : Nat) (hcam : camera < 2) (fs : String → Option (List Char)) :
    Option.map (fun tbl => tbl.map decodeEntry)
      (read_sample_locs
        (save_locs camera (encodeTable t) fs (List.getD location_files camera dfltPath)))
      = some t := by
  have hsave : save_locs camera (encodeTable t) fs
      (List.getD location_files camera dfltPath) = some (renderLines (encodeTable t)) := by
    unfold save_locs
    rw [if_pos rfl]
  rw [hsave]
  have hclean : ∀ rc ∈ encodeTable t, cleanLine rc.1 ∧ cleanLine rc.2 := by
    intro rc hrc
    obtain ⟨p, hp, rfl⟩ := List.mem_map.mp hrc
    exact ⟨cleanLine_entry (by decide) (by decide) p.2,
      cleanLine_entry (by decide) (by decide) p.1⟩
  have hlen : (encodeTable t).length = 12 := by
    unfold encodeTable
    rw [List.length_map, h12]
  rw [read_sample_locs_renderLines hlen hclean]
  have hdec : (encodeTable t).map decodeEntry = t := by
    unfold encodeTable
    rw [List.map_map]
    have hcomp : (decodeEntry ∘ fun p : Nat × Nat => update_locs_entry p.1 p.2) = id := by
      funext p
      simp [Function.comp, decodeEntry_update_locs_entry]
    rw [hcomp, List.map_id]
  simp [hdec]

/-- C7, witness at a concrete in-bounds 12-entry table, camera 0, empty
file system. -/
theorem C7_witness :
    sampleTable.length = 12 ∧
    (∀ p ∈ sampleTable, p.1 ≤ 59000) ∧
    (∀ p ∈ sampleTable, p.2 ≤ 29000) ∧
    (0 : Nat) < 2 ∧
    Option.map (fun tbl => tbl.map decodeEntry)
      (read_sample_locs
        (save_locs 0 (encodeTable sampleTable) emptyFs (List.getD location_files 0 dfltPath)))
      = some sampleTable :=
  ⟨by decide, by decide, by decide, by decide,
    C7_save_load sampleTable (by decide) (by decide) (by decide) 0 (by decide) emptyFs⟩

/-- C8: `read_sample_locs` fails (the `reshape` error propagates, no
truncation and no default fallback) whenever the file exists but its
contents do not yield exactly 24 non-empty lines after blank filtering; the
built-in 12-entry preset table is returned only when the file does not
exist (`FileNotFoundError`). -/
theorem C8_load_strict (content : List Char)
    (h : ((bytesSplitlines content).filter (fun l => !l.isEmpty)).length ≠ 24) :
    read_sample_locs (some content) = none ∧
    read_sample_locs none = some presetLocations := by
  constructor
  · show (let byte_values := bytesSplitlines content
          let byte_values := byte_values.filter (fun l => !l.isEmpty)
          let string_values := byte_values.map (fun l => pyRstrip l ['\n'])
          if string_values.length = 24 then some (chunkPairs string_values)
          else none) = none
    simp only []
    have h2 : ¬(((bytesSplitlines content).filter (fun l => !l.isEmpty)).map
        (fun l => pyRstrip l ['\n'])).length = 24 := by
      rw [List.length_map]
      exact h
    rw [if_neg h2]
  · rfl

/-- C8, witness: a 23-line file (11 complete entries plus one extra line)
makes the load fail. -/
theorem C8_witness :
    ((bytesSplitlines badContent).filter (fun l => !l.isEmpty)).length ≠ 24 ∧
    (read_sample_locs (some badContent) = none ∧
     read_sample_locs none = some presetLocations) :=
  ⟨by decide, C8_load_strict badContent (by decide)⟩

/-- C9: for every `sample_size ∈ {4,6,8,10,12}` and `skip_row ∈ {0,1}`,
both index ranges passed to the sweeps satisfy
`0 ≤ start ≤ end ≤ 12`, and consequently every table index accessed during
a cycle's sweeps lies in `[0, 12)` — no out-of-bounds access into the
12-slot grid. -/
theorem C9_ranges_in_bounds (size skip : Nat)
    (hsize : size ∈ ([4, 6, 8, 10, 12] : List Nat))
    (hskip : skip ∈ ([0, 1] : List Nat)) :
    (0 ≤ (skip : Int) ∧
     (skip : Int) ≤ ((size / 2 : Nat) : Int) + (skip : Int) ∧
     ((size / 2 : Nat) : Int) + (skip : Int) ≤ 12) ∧
    (0 ≤ 12 - (skip : Int) - ((size / 2 : Nat) : Int) ∧
     12 - (skip : Int) - ((size / 2 : Nat) : Int) ≤ 12 - (skip : Int) ∧
     12 - (skip : Int) ≤ 12) ∧
    ((visitedFirst size skip ++ visitedSecond size skip).all
      (fun i => decide (0 ≤ i) && decide (i < 12))) = true := by
  fin_cases hsize <;> fin_cases hskip <;> exact ⟨by decide, by decide, by decide⟩

/-- C9, witness at `sample_size = 8`, `skip_row = 0`. -/
theorem C9_witness :
    (8 : Nat) ∈ ([4, 6, 8, 10, 12] : List Nat) ∧
    (0 : Nat) ∈ ([0, 1] : List Nat) ∧
    ((0 ≤ ((0 : Nat) : Int) ∧
      ((0 : Nat) : Int) ≤ ((8 / 2 : Nat) : Int) + ((0 : Nat) : Int) ∧
      ((8 / 2 : Nat) : Int) + ((0 : Nat) : Int) ≤ 12) ∧
     (0 ≤ 12 - ((0 : Nat) : Int) - ((8 / 2 : Nat) : Int) ∧
      12 - ((0 : Nat) : Int) - ((8 / 2 : Nat) : Int) ≤ 12 - ((0 : Nat) : Int) ∧
      12 - ((0 : Nat) : Int) ≤ 12) ∧
     ((visitedFirst 8 0 ++ visitedSecond 8 0).all
       (fun i => decide (0 ≤ i) && decide (i < 12))) = true) :=
  ⟨by decide, by decide, C9_ranges_in_bounds 8 0 (by decide) (by decide)⟩

/-- C10: for `sample_size = 12`, `skip_row = 1` the two sweeps are `[1, 7)`
and `[5, 11)`: indices 5 and 6 are visited twice in the same cycle, indices
0 and 11 are never visited, and the cycle performs 12 captures over only 10
distinct slots — the two sweeps are not disjoint for every valid run
configuration. -/
theorem C10_sweep_overlap :
    visitedFirst 12 1 = pyRange 1 7 ∧
    visitedSecond 12 1 = pyRange 5 11 ∧
    (visitedFirst 12 1 ++ visitedSecond 12 1).count (5 : Int) = 2 ∧
    (visitedFirst 12 1 ++ visitedSecond 12 1).count (6 : Int) = 2 ∧
    (5 : Int) ∈ visitedFirst 12 1 ∧ (5 : Int) ∈ visitedSecond 12 1 ∧
    (0 : Int) ∉ visitedFirst 12 1 ++ visitedSecond 12 1 ∧
    (11 : Int) ∉ visitedFirst 12 1 ++ visitedSecond 12 1 ∧
    (visitedFirst 12 1 ++ visitedSecond 12 1).length = 12 ∧
    ((run_cycle 12 1 true 5 30 30 0).filter isCapture).length = 12 ∧
    (visitedFirst 12 1 ++ visitedSecond 12 1).dedup.length = 10 := by
  decide
